import Mathlib

/-!
Verification of the Record Validation & Classification Engine of
`lambda_function.py` (Customer-Satisfaction repository).

The Python source is shallowly embedded: JSON values become an inductive
`JVal`, XML documents an inductive `XmlElem`, CSV rows association lists,
S3 object storage an association list from keys to structured contents,
and every fallible Python operation returns `Except Unit _` (an `.error`
models an uncaught Python exception propagating to the caller).
-/

namespace CustomerSat

/-- Structural substring test on character lists (Python's `in` on `str`). -/
def hasSub (pat : List Char) : List Char → Bool
  | [] => pat.isEmpty
  | c :: cs => pat.isPrefixOf (c :: cs) || hasSub pat cs

/-- Python's `str.strip()` (both-ends whitespace removal), defined
structurally on the character list so that it reduces in the kernel. -/
def strTrim (s : String) : String :=
  ⟨((s.data.dropWhile Char.isWhitespace).reverse.dropWhile Char.isWhitespace).reverse⟩

/-- Python's `str.isdigit` restricted to ASCII digits: `True` iff the string
is non-empty and every character is a digit (`"".isdigit()` is `False`). -/
def isDigitStr (s : String) : Bool :=
  !s.data.isEmpty && s.data.all Char.isDigit

/-- Digit string to natural number (`"0413"` ↦ `413`). -/
def natOfDigits (s : String) : Nat :=
  s.data.foldl (fun a c => 10 * a + (c.toNat - 48)) 0

/-- Python's `int(str)`: optional surrounding whitespace, optional sign,
then a non-empty run of digits (underscore grouping is not modelled).
`int("5.0")` and `int("abc")` raise `ValueError`, giving `none`. -/
def parseInt? (s : String) : Option Int :=
  match (strTrim s).data with
  | '-' :: ds => if ds ≠ [] ∧ ds.all Char.isDigit then some (-(natOfDigits ⟨ds⟩ : Int)) else none
  | '+' :: ds => if ds ≠ [] ∧ ds.all Char.isDigit then some (natOfDigits ⟨ds⟩ : Int) else none
  | ds => if ds ≠ [] ∧ ds.all Char.isDigit then some (natOfDigits ⟨ds⟩ : Int) else none

/-- Mantissa-and-exponent parser backing `parseFloat?`: digits, an optional
point with further digits, requiring at least one digit overall. Returns
the value as a rational. -/
def parseMantissa? (ds : List Char) : Option ℚ :=
  let intPart := ds.takeWhile Char.isDigit
  let rest := ds.dropWhile Char.isDigit
  match rest with
  | [] => if intPart = [] then none else some (natOfDigits ⟨intPart⟩ : ℚ)
  | '.' :: fracs =>
      if fracs.all Char.isDigit ∧ (intPart ≠ [] ∨ fracs ≠ []) then
        some ((natOfDigits ⟨intPart⟩ : ℚ) + (natOfDigits ⟨fracs⟩ : ℚ) / (10 : ℚ) ^ fracs.length)
      else none
  | _ => none

/-- Python's `float(str)` on finite decimal literals: optional whitespace and
sign, mantissa, optional decimal exponent. `inf`/`nan` and underscore
grouping are not modelled (no claim exercises them). -/
def parseFloat? (s : String) : Option ℚ :=
  let core := fun (ds : List Char) =>
    match ds.splitOn 'e' with
    | [m] =>
      match m.splitOn 'E' with
      | [m'] => parseMantissa? m'
      | [m', e] => (parseMantissa? m').bind fun q => (parseInt? ⟨e⟩).map fun n => q * (10 : ℚ) ^ n
      | _ => none
    | [m, e] => (parseMantissa? m).bind fun q => (parseInt? ⟨e⟩).map fun n => q * (10 : ℚ) ^ n
    | _ => none
  match (strTrim s).data with
  | '-' :: ds => (core ds).map Neg.neg
  | '+' :: ds => core ds
  | ds => core ds

/-- A JSON value as produced by Python's `json.loads`: null, booleans,
integers and floats (kept apart, as Python does), strings, arrays and
objects (association lists with string keys). -/
inductive JVal where
  | null : JVal
  | b : Bool → JVal
  | i : Int → JVal
  | f : ℚ → JVal
  | s : String → JVal
  | arr : List JVal → JVal
  | obj : List (String × JVal) → JVal

/-- Key lookup in a JSON object; `none` when the receiver is not an object
or lacks the key. JSON objects have unique keys, so first-match lookup
agrees with Python dict semantics. -/
def jGet (v : JVal) (k : String) : Option JVal :=
  match v with
  | .obj kvs => (kvs.find? (fun kv => kv.1 == k)).map (·.2)
  | _ => none

/-- Rendering used only through `isdigit`: Python's `str()` of a float always
contains a point (or exponent), and of a list/dict always contains a
bracket, so those renderings are never all-digits; the placeholders below
preserve exactly that property. -/
def pyStr (v : JVal) : String :=
  match v with
  | .null => "None"
  | .b true => "True"
  | .b false => "False"
  | .i n => toString n
  | .f q => if q.den = 1 then toString q.num ++ ".0" else toString q.num ++ "." ++ toString q.den
  | .s t => t
  | .arr _ => "[...]"
  | .obj _ => "(...)"

/-- Python's `x in rec` (`__contains__`): key membership for dicts, element
membership for lists, substring test for strings; `TypeError` otherwise. -/
def pyContains (v : JVal) (k : String) : Except Unit Bool :=
  match v with
  | .obj kvs => .ok ((kvs.find? (fun kv => kv.1 == k)).isSome)
  | .arr xs => .ok (xs.any (fun x => match x with | .s t => t == k | _ => false))
  | .s t => .ok (hasSub k.data t.data)
  | _ => .error ()

/-- Python's `rec[k]` with a string key: dict lookup (`KeyError` when
absent); `TypeError` on lists, strings and scalars. -/
def pyIndex (v : JVal) (k : String) : Except Unit JVal :=
  match v with
  | .obj kvs =>
    match kvs.find? (fun kv => kv.1 == k) with
    | some kv => .ok kv.2
    | none => .error ()
  | _ => .error ()

/-- Python's `float(x)` for a JSON value: numbers and booleans convert,
strings are parsed, everything else raises `TypeError` (`.error`). -/
def pyFloat (v : JVal) : Except Unit ℚ :=
  match v with
  | .i n => .ok (n : ℚ)
  | .f q => .ok q
  | .b true => .ok 1
  | .b false => .ok 0
  | .s t => match parseFloat? t with
    | some q => .ok q
    | none => .error ()
  | _ => .error ()

/-- Python's `x.strip()`: succeeds only on strings (`AttributeError`,
i.e. `.error`, otherwise). -/
def pyStrip (v : JVal) : Except Unit String :=
  match v with
  | .s t => .ok (strTrim t)
  | _ => .error ()

/-- Days per month as validated by `datetime`, with Gregorian leap years. -/
def daysInMonth (y m : Nat) : Nat :=
  if m = 2 then
    if (y % 4 = 0 ∧ y % 100 ≠ 0) ∨ y % 400 = 0 then 29 else 28
  else if m = 4 ∨ m = 6 ∨ m = 9 ∨ m = 11 then 30
  else 31

/-- Structural split of a character list on a separator character. -/
def splitOnChar (sep : Char) : List Char → List (List Char)
  | [] => [[]]
  | c :: cs =>
    match splitOnChar sep cs with
    | [] => [[]]
    | g :: gs => if c = sep then [] :: g :: gs else (c :: g) :: gs

/-- `is_valid_date` of the source: `datetime.strptime(date_str, "%Y-%m-%d")`
succeeds iff the string is `Y-M-D` with a 4-digit year ≥ 1, a 1–2 digit
month in 1..12, and a 1–2 digit day valid for that month; any failure is
swallowed by the bare `except`, returning `False`. -/
def is_valid_date (date_str : String) : Bool :=
  match splitOnChar '-' date_str.data with
  | [y, m, d] =>
    y.length = 4 && y.all Char.isDigit &&
    (1 ≤ natOfDigits ⟨y⟩) &&
    (1 ≤ m.length && m.length ≤ 2) && m.all Char.isDigit &&
    (1 ≤ natOfDigits ⟨m⟩ && natOfDigits ⟨m⟩ ≤ 12) &&
    (1 ≤ d.length && d.length ≤ 2) && d.all Char.isDigit &&
    (1 ≤ natOfDigits ⟨d⟩ && natOfDigits ⟨d⟩ ≤ daysInMonth (natOfDigits ⟨y⟩) (natOfDigits ⟨m⟩))
  | _ => false

/-- `is_valid_date(rec["Date"])` where the argument may be any JSON value:
`strptime` raises `TypeError` on non-strings, which the bare `except`
inside `is_valid_date` converts to `False`. -/
def is_valid_date_val (v : JVal) : Bool :=
  match v with
  | .s d => is_valid_date d
  | _ => false

/-- The `or`-chain of `process_json_records`, with Python's left-to-right
short-circuit evaluation; `.ok true` means the condition held (record
invalid), `.ok false` it did not (record valid), `.error` an exception
during evaluation (caught by the enclosing `except`). -/
def jsonCheck (rec : JVal) : Except Unit Bool :=
  match pyContains rec "CustomerID" with
  | .error e => .error e
  | .ok false => .ok true
  | .ok true =>
  match pyIndex rec "CustomerID" with
  | .error e => .error e
  | .ok cid =>
  if !(isDigitStr (pyStr cid)) then .ok true else
  match pyContains rec "Amount" with
  | .error e => .error e
  | .ok false => .ok true
  | .ok true =>
  match pyIndex rec "Amount" with
  | .error e => .error e
  | .ok amtv =>
  match pyFloat amtv with
  | .error e => .error e
  | .ok amt =>
  if amt ≤ 0 then .ok true else
  match pyContains rec "Product" with
  | .error e => .error e
  | .ok false => .ok true
  | .ok true =>
  match pyIndex rec "Product" with
  | .error e => .error e
  | .ok prodv =>
  match pyStrip prodv with
  | .error e => .error e
  | .ok prod =>
  if prod = "" then .ok true else
  match pyContains rec "Date" with
  | .error e => .error e
  | .ok false => .ok true
  | .ok true =>
  match pyIndex rec "Date" with
  | .error e => .error e
  | .ok datev =>
  if !(is_valid_date_val datev) then .ok true else .ok false

/-- Per-record verdict of `process_json_records`: the record goes to `valid`
iff the condition evaluates, without raising, to `False`; an exception puts
it in `invalid` (the `except: invalid.append(rec)` branch). -/
def jsonRecordValid (rec : JVal) : Bool :=
  match jsonCheck rec with
  | .ok cond => !cond
  | .error _ => false

/-- The classification loop shared by the three `process_*_records`
functions: a single pass appending each record to `valid` or `invalid`. -/
def classify (p : α → Bool) : List α → List α × List α
  | [] => ([], [])
  | r :: rs =>
    let (v, i) := classify p rs
    if p r then (r :: v, i) else (v, r :: i)

theorem classify_eq_filter (p : α → Bool) (l : List α) :
    classify p l = (l.filter p, l.filter (fun r => !p r)) := by
  induction l with
  | nil => rfl
  | cons r rs ih =>
    simp only [classify, ih, List.filter_cons]
    cases h : p r <;> simp [h]

/-- `process_json_records` on the decoded top-level list (the `json.loads`
step is modelled separately in the handler). -/
def process_json_records (records : List JVal) : List JVal × List JVal :=
  classify jsonRecordValid records

/-- A CSV row as produced by `csv.DictReader`: header fields in order,
each mapped to a value, `none` standing for a missing trailing field. -/
abbrev Row := List (String × Option String)

/-- `row[f]`: `none` when the field is absent (Python `KeyError`). -/
def rowGet (r : Row) (f : String) : Option (Option String) :=
  (r.find? (fun kv => kv.1 == f)).map (·.2)

/-- The `or`-chain of `process_csv_records` (same conventions as
`jsonCheck`): missing key raises `KeyError`, `None.isdigit()` raises
`AttributeError`, `int` of `None` or of a non-numeric string raises. -/
def csvCheck (row : Row) : Except Unit Bool :=
  match rowGet row "CustomerID" with
  | none => .error ()
  | some none => .error ()
  | some (some cid) =>
  if !(isDigitStr cid) then .ok true else
  match rowGet row "Rating" with
  | none => .error ()
  | some none => .error ()
  | some (some rs) =>
  match parseInt? rs with
  | none => .error ()
  | some rating =>
  if rating < 1 then .ok true else
  if rating > 5 then .ok true else
  match rowGet row "Feedback" with
  | none => .error ()
  | some none => .error ()
  | some (some fb) =>
  if strTrim fb = "" then .ok true else .ok false

/-- Per-row verdict of `process_csv_records` (exception ⇒ `invalid`). -/
def csvRowValid (row : Row) : Bool :=
  match csvCheck row with
  | .ok cond => !cond
  | .error _ => false

/-- `process_csv_records` on the rows decoded by `csv.DictReader` (the
text-to-rows step is modelled separately in the handler). -/
def process_csv_records (rows : List Row) : List Row × List Row :=
  classify csvRowValid rows

/-- An `xml.etree.ElementTree` element: tag, text before the first child
(`elem.text`, `none` when absent), and child elements in document order. -/
inductive XmlElem where
  | mk : String → Option String → List XmlElem → XmlElem

def XmlElem.tag : XmlElem → String
  | .mk t _ _ => t

def XmlElem.text : XmlElem → Option String
  | .mk _ tx _ => tx

def XmlElem.children : XmlElem → List XmlElem
  | .mk _ _ cs => cs

mutual

/-- Matches of `.//Customer` within the subtree rooted at `e`, the element
itself included, in document order (ElementTree returns matches of the
descendant axis in preorder, nested `Customer` elements included). -/
def findCust : XmlElem → List XmlElem
  | .mk t tx cs => (if t = "Customer" then [.mk t tx cs] else []) ++ findCustList cs

def findCustList : List XmlElem → List XmlElem
  | [] => []
  | c :: cs => findCust c ++ findCustList cs

end

/-- `root.findall(".//Customer")`: all `Customer` descendants of the root
(the root element itself is not on the descendant axis). -/
def findAllCustomers (root : XmlElem) : List XmlElem :=
  findCustList root.children

/-- `cust.find(name)`: first direct child with the given tag. -/
def xmlFind (e : XmlElem) (name : String) : Option XmlElem :=
  e.children.find? (fun c => c.tag == name)

/-- Truthiness test `not e.text`: `True` for `None` and for `""`. -/
def textFalsy (tx : Option String) : Bool :=
  match tx with
  | none => true
  | some t => t == ""

/-- Per-element verdict of `process_xml_records`: the three children must
exist; `CustomerID`'s text must be truthy and digits after strip; `Name`'s
and `City`'s text must be truthy and non-empty after strip. -/
def xmlCustValid (cust : XmlElem) : Bool :=
  match xmlFind cust "CustomerID", xmlFind cust "Name", xmlFind cust "City" with
  | some cid, some name, some city =>
    !(textFalsy cid.text) && isDigitStr (strTrim ((cid.text).getD "")) &&
    !(textFalsy name.text) && !(strTrim ((name.text).getD "") == "") &&
    !(textFalsy city.text) && !(strTrim ((city.text).getD "") == "")
  | _, _, _ => false

/-- `process_xml_records` on the parsed root (the `ET.fromstring` step is
modelled separately in the handler). -/
def process_xml_records (root : XmlElem) : List XmlElem × List XmlElem :=
  classify xmlCustValid (findAllCustomers root)

/-- `build_xml`: wrap the given customer elements in a fresh `Customers`
root element. -/
def build_xml (customers : List XmlElem) : XmlElem :=
  .mk "Customers" none customers

/-- Python's `str.startswith`. -/
def strStartsWith (s pre : String) : Bool :=
  pre.data.isPrefixOf s.data

/-- Python's `str.endswith`. -/
def strEndsWith (s suf : String) : Bool :=
  suf.data.isSuffixOf s.data

/-- Python's `str.__contains__` on strings. -/
def strContains (s pat : String) : Bool :=
  hasSub pat.data s.data

/-- Left-to-right non-overlapping replacement of `pat` by `rep`, the
semantics of Python's `str.replace` for a non-empty pattern. The fuel
argument (instantiated with the input length, which always suffices,
each step consuming at least one character) keeps the recursion
structural so that it reduces in the kernel. -/
def replaceFuel (pat rep : List Char) : Nat → List Char → List Char
  | _, [] => []
  | 0, l => l
  | n + 1, c :: cs =>
    if pat ≠ [] ∧ pat.isPrefixOf (c :: cs) then
      rep ++ replaceFuel pat rep n ((c :: cs).drop pat.length)
    else
      c :: replaceFuel pat rep n cs

/-- Python's `key.replace(pat, rep)` for a non-empty `pat` (the source only
uses the patterns `"raw/"`). -/
def pyReplace (s pat rep : String) : String :=
  ⟨replaceFuel pat.data rep.data s.data.length s.data⟩

/-- The structured content of a stored object, in place of its raw text:
a well-formed XML document, a JSON document, a CSV text (header line and
the subsequent value rows), or text that parses as none of the three
formats. -/
inductive Content where
  | xml : XmlElem → Content
  | json : JVal → Content
  | csv : List String → List (List String) → Content
  | other : Content

/-- `ET.fromstring`: the parsed root for well-formed XML, `ParseError`
(`.error`) otherwise. JSON and CSV texts are not well-formed XML. -/
def readAsXml (c : Content) : Except Unit XmlElem :=
  match c with
  | .xml root => .ok root
  | _ => .error ()

/-- `json.loads`: the parsed value for valid JSON, `JSONDecodeError`
(`.error`) otherwise. XML and CSV texts are not valid JSON. -/
def readAsJson (c : Content) : Except Unit JVal :=
  match c with
  | .json v => .ok v
  | _ => .error ()

/-- Python's `for rec in records` over a `json.loads` result: arrays
iterate their elements, dicts their keys, strings their characters
(as 1-character strings); numbers, booleans and `None` raise
`TypeError`. -/
def jsonTopIter (v : JVal) : Except Unit (List JVal) :=
  match v with
  | .arr xs => .ok xs
  | .obj kvs => .ok (kvs.map (fun kv => .s kv.1))
  | .s t => .ok (t.data.map (fun ch => .s ⟨[ch]⟩))
  | _ => .error ()

/-- One `csv.DictReader` row: header fields zipped with the row's values,
missing trailing values becoming `None`. Extra trailing values (Python's
`restkey`) are not modelled; no stored file produced by the handler has
them. -/
def mkRow : List String → List String → Row
  | [], _ => []
  | h :: hs, [] => (h, none) :: mkRow hs []
  | h :: hs, v :: vs => (h, some v) :: mkRow hs vs

/-- `csv.DictReader` over a stored object's content. `DictReader` never
raises on malformed text; for contents of the other formats (whose exact
textual rendering the model does not track) it yields the rows of that
text read as CSV, approximated here as the empty list. -/
def readAsCsv (c : Content) : List Row :=
  match c with
  | .csv header rows => rows.map (mkRow header)
  | _ => []

/-- The string a cell value becomes in `csv.DictWriter` output: the value
itself when present, the empty string for `None` (the csv writer renders
`None` as empty) and for a field the row lacks (`restval`, default
`""`). -/
def rowFlat : Option (Option String) → String
  | some (some v) => v
  | _ => ""

/-- The key list of a row. -/
def rowKeys (r : Row) : List String := r.map (·.1)

/-- `csv.DictWriter` serialization with `fieldnames=rows[0].keys()`:
a header row of the first row's keys, then one value row per record,
fields in `fieldnames` order, `None` written as the empty string.
All rows produced by `DictReader` share the header's key list, so
`DictWriter`'s extra-key `ValueError` cannot trigger. -/
def csvSerialize (rows : List Row) : Content :=
  match rows with
  | [] => .csv [] []
  | r0 :: _ =>
    let fns := rowKeys r0
    .csv fns (rows.map (fun r => fns.map (fun f => rowFlat (rowGet r f))))

/-- The single-bucket S3 object store: keys with their structured
contents, keys unique. -/
abbrev S3State := List (String × Content)

/-- `s3.get_object` key lookup. -/
def s3lookup (s : S3State) (k : String) : Option Content :=
  (s.find? (fun kv => kv.1 == k)).map (·.2)

/-- `s3.put_object`: overwrite the object at the key, or create it. -/
def s3put : S3State → String → Content → S3State
  | [], k, v => [(k, v)]
  | (k', v') :: rest, k, v =>
    if k' = k then (k, v) :: rest else (k', v') :: s3put rest k v

/-- The objects listed by `s3.list_objects_v2(Prefix=pre)`, each with its
content (S3 keys are unique, and listing-then-getting visits exactly the
stored objects under the prefix). -/
def filterPfx (pre : String) (s : S3State) : S3State :=
  s.filter (fun kv => strStartsWith kv.1 pre)

/-- Apply a sequence of `put_object` calls in order. -/
def afterPuts (s : S3State) (puts : List (String × Content)) : S3State :=
  puts.foldl (fun st kv => s3put st kv.1 kv.2) s

/-- `DataQualityScore`: `total_valid / (total_valid + total_invalid) * 100`
when at least one record was counted, else `0` (lines 409–413 of the
source; exact rational arithmetic in place of Python floats). -/
def dq_score (total_valid total_invalid : Nat) : ℚ :=
  if 0 < total_valid + total_invalid then
    ((total_valid : ℚ) / ((total_valid : ℚ) + (total_invalid : ℚ))) * 100
  else 0

/-- The observable result of a completed invocation: the returned status
string, the final storage state, the number of `report_validation_failure`
metric emissions, the Glue job start (with its `--DQ_SCORE` and
`--ERROR_COUNT` arguments) when one happened, and the run's cumulative
counters and score (locals of the handler, exposed for specification). -/
structure Outcome where
  status : String
  s3 : S3State
  failMetrics : Nat
  glue : Option (ℚ × Nat)
  totalValid : Nat
  totalInvalid : Nat
  dq : ℚ

/-- Valid-record count that one stored object contributes during the
`validated/` rescan (lines 374–389): parse by extension, count the `valid`
cohort; unknown extensions are skipped (`continue`); a parse failure
propagates out of the handler. -/
def rescanValidOne (k : String) (c : Content) : Except Unit Nat :=
  if strEndsWith k ".xml" then
    match readAsXml c with
    | .error e => .error e
    | .ok root => .ok (process_xml_records root).1.length
  else if strEndsWith k ".json" then
    match readAsJson c with
    | .error e => .error e
    | .ok v =>
      match jsonTopIter v with
      | .error e => .error e
      | .ok recs => .ok (process_json_records recs).1.length
  else if strEndsWith k ".csv" then
    .ok (process_csv_records (readAsCsv c)).1.length
  else
    .ok 0

/-- Invalid-record count that one stored object contributes during the
`error/` rescan (lines 391–406). -/
def rescanInvalidOne (k : String) (c : Content) : Except Unit Nat :=
  if strEndsWith k ".xml" then
    match readAsXml c with
    | .error e => .error e
    | .ok root => .ok (process_xml_records root).2.length
  else if strEndsWith k ".json" then
    match readAsJson c with
    | .error e => .error e
    | .ok v =>
      match jsonTopIter v with
      | .error e => .error e
      | .ok recs => .ok (process_json_records recs).2.length
  else if strEndsWith k ".csv" then
    .ok (process_csv_records (readAsCsv c)).2.length
  else
    .ok 0

/-- Sum a per-object contribution over a listing, stopping at the first
uncaught parse failure (the loop body of the rescans). -/
def rescanSum (one : String → Content → Except Unit Nat) : S3State → Except Unit Nat
  | [] => .ok 0
  | (k, c) :: rest =>
    match one k c with
    | .error e => .error e
    | .ok n =>
      match rescanSum one rest with
      | .error e => .error e
      | .ok m => .ok (n + m)

/-- The current-file processing branch (lines 298–363): dispatch on the
key's extension, classify, and emit the cohort `put_object` calls (the
validated cohort first, each only when non-empty, at the key with `raw/`
replaced). Returns the puts and the current file's `total_valid` /
`total_invalid` increments. Unknown extensions fall through with no
processing. Bedrock enrichment is disabled (`ENABLE_BEDROCK` unset), as
in the default deployment; it writes only under `ai/` and does not touch
the counters or the score. -/
def processCurrent (key : String) (content : Content) :
    Except Unit (List (String × Content) × Nat × Nat) :=
  if strEndsWith key ".xml" then
    match readAsXml content with
    | .error e => .error e
    | .ok root =>
      let vi := process_xml_records root
      .ok ((if vi.1.isEmpty then [] else
              [(pyReplace key "raw/" "validated/", Content.xml (build_xml vi.1))]) ++
           (if vi.2.isEmpty then [] else
              [(pyReplace key "raw/" "error/", Content.xml (build_xml vi.2))]),
           vi.1.length, vi.2.length)
  else if strEndsWith key ".json" then
    match readAsJson content with
    | .error e => .error e
    | .ok v =>

      match jsonTopIter v with
      | .error e => .error e
      | .ok recs =>
        let vi := process_json_records recs
        .ok ((if vi.1.isEmpty then [] else
                [(pyReplace key "raw/" "validated/", Content.json (.arr vi.1))]) ++
             (if vi.2.isEmpty then [] else
                [(pyReplace key "raw/" "error/", Content.json (.arr vi.2))]),
             vi.1.length, vi.2.length)
  else if strEndsWith key ".csv" then
    let vi := process_csv_records (readAsCsv content)
    .ok ((if vi.1.isEmpty then [] else
            [(pyReplace key "raw/" "validated/", csvSerialize vi.1)]) ++
         (if vi.2.isEmpty then [] else
            [(pyReplace key "raw/" "error/", csvSerialize vi.2)]),
         vi.1.length, vi.2.length)
  else
    .ok ([], 0, 0)

/-- Lines 289–462 after the triggering file was read: process the current
file, rescan `validated/` and `error/`, compute the score, emit the
failure metric when `total_invalid > 0`, and start the Glue job when
`total_valid > 0`. -/
def mainFlow (key : String) (content : Content) (s : S3State) : Except Unit Outcome :=
  match processCurrent key content with
  | .error e => .error e
  | .ok (puts, cv, ci) =>
    let s1 := afterPuts s puts
    match rescanSum rescanValidOne (filterPfx "validated/" s1) with
    | .error e => .error e
    | .ok rv =>
      match rescanSum rescanInvalidOne (filterPfx "error/" s1) with
      | .error e => .error e
      | .ok ri =>
        let tv := cv + rv
        let ti := ci + ri
        let dq := dq_score tv ti
        .ok { status := "Record-level processing complete"
              s3 := s1
              failMetrics := if 0 < ti then 1 else 0
              glue := if 0 < tv then some (dq, ti) else none
              totalValid := tv
              totalInvalid := ti
              dq := dq }

/-- Python's `x[0]`: first element of a list (`IndexError` when empty),
first character of a string, `KeyError`/`TypeError` otherwise. -/
def pyIndex0 (v : JVal) : Except Unit JVal :=
  match v with
  | .arr (x :: _) => .ok x
  | .s t =>
    match t.data with
    | ch :: _ => .ok (.s ⟨[ch]⟩)
    | [] => .error ()
  | _ => .error ()

/-- The guarded `event["Records"][0]` of lines 270–275. -/
def extractRecord0 (event : JVal) : Except Unit JVal :=
  match pyIndex event "Records" with
  | .error e => .error e
  | .ok recs => pyIndex0 recs

/-- `lambda_handler(event, context)` over the single-bucket store `s`.
An `.ok` result is the returned status object together with the
invocation's observable effects; `.error` is an uncaught Python exception
escaping the handler. The guarded early exits return a status and emit
one failure metric; the nested `record["s3"]["bucket"]["name"]` /
`record["s3"]["object"]["key"]` accesses of lines 277–278 are outside
any `try` and propagate. -/
def lambda_handler (event : JVal) (s : S3State) : Except Unit Outcome :=
  match extractRecord0 event with
  | .error _ =>
    .ok { status := "No Records", s3 := s, failMetrics := 1, glue := none
          totalValid := 0, totalInvalid := 0, dq := 0 }
  | .ok record =>
    match pyIndex record "s3" with
    | .error e => .error e
    | .ok s3v =>
    match pyIndex s3v "bucket" with
    | .error e => .error e
    | .ok bucketv =>
    match pyIndex bucketv "name" with
    | .error e => .error e
    | .ok _bname =>
    match pyIndex s3v "object" with
    | .error e => .error e
    | .ok objv =>
    match pyIndex objv "key" with
    | .error e => .error e
    | .ok keyv =>
    match keyv with
    | .s key =>
      match s3lookup s key with
      | none =>
        .ok { status := "Failed to read file", s3 := s, failMetrics := 1, glue := none
              totalValid := 0, totalInvalid := 0, dq := 0 }
      | some content => mainFlow key content s
    | _ =>
      .ok { status := "Failed to read file", s3 := s, failMetrics := 1, glue := none
            totalValid := 0, totalInvalid := 0, dq := 0 }

/-- The standard S3 notification event naming one `(bucket, key)` pair. -/
def mkS3Event (bucket key : String) : JVal :=
  .obj [("Records", .arr [.obj [("s3", .obj
    [("bucket", .obj [("name", .s bucket)]),
     ("object", .obj [("key", .s key)])])]])]

/-! ## Generic facts about the classification loop -/

theorem classify_partition (p : α → Bool) (l : List α) :
    (classify p l).1.length + (classify p l).2.length = l.length ∧
    (classify p l).1.Sublist l ∧ (classify p l).2.Sublist l ∧
    ((classify p l).1 ++ (classify p l).2).Perm l ∧
    (∀ r, ¬(r ∈ (classify p l).1 ∧ r ∈ (classify p l).2)) ∧
    (∀ r ∈ l, (r ∈ (classify p l).1 ∧ r ∉ (classify p l).2) ∨
              (r ∈ (classify p l).2 ∧ r ∉ (classify p l).1)) := by
  rw [classify_eq_filter]
  refine ⟨?_, List.filter_sublist l, List.filter_sublist l, List.filter_append_perm p l, ?_, ?_⟩
  · have h := (List.filter_append_perm p l).length_eq
    simpa [List.length_append] using h
  · rintro r ⟨h1, h2⟩
    rw [List.mem_filter] at h1 h2
    simp [h1.2] at h2
  · intro r hr
    cases hp : p r with
    | true =>
      left
      refine ⟨List.mem_filter.mpr ⟨hr, hp⟩, fun hmem => ?_⟩
      rw [List.mem_filter] at hmem
      simp [hp] at hmem
    | false =>
      right
      refine ⟨List.mem_filter.mpr ⟨hr, by simp [hp]⟩, fun hmem => ?_⟩
      rw [List.mem_filter] at hmem
      simp [hp] at hmem

/-! ## Claim theorems -/

/-- C1: for each of the three format validators, the classifier's two output
sequences partition the decoded input records: the lengths add up, both are
order-preserving subsequences, their concatenation is a permutation of the
input, the two are disjoint, and every input record lands in exactly one. -/
theorem c1_classifier_partitions_input :
    (∀ root : XmlElem,
      (process_xml_records root).1.length + (process_xml_records root).2.length =
        (findAllCustomers root).length ∧
      (process_xml_records root).1.Sublist (findAllCustomers root) ∧
      (process_xml_records root).2.Sublist (findAllCustomers root) ∧
      ((process_xml_records root).1 ++ (process_xml_records root).2).Perm (findAllCustomers root) ∧
      (∀ r, ¬(r ∈ (process_xml_records root).1 ∧ r ∈ (process_xml_records root).2)) ∧
      (∀ r ∈ findAllCustomers root,
        (r ∈ (process_xml_records root).1 ∧ r ∉ (process_xml_records root).2) ∨
        (r ∈ (process_xml_records root).2 ∧ r ∉ (process_xml_records root).1))) ∧
    (∀ records : List JVal,
      (process_json_records records).1.length + (process_json_records records).2.length =
        records.length ∧
      (process_json_records records).1.Sublist records ∧
      (process_json_records records).2.Sublist records ∧
      ((process_json_records records).1 ++ (process_json_records records).2).Perm records ∧
      (∀ r, ¬(r ∈ (process_json_records records).1 ∧ r ∈ (process_json_records records).2)) ∧
      (∀ r ∈ records,
        (r ∈ (process_json_records records).1 ∧ r ∉ (process_json_records records).2) ∨
        (r ∈ (process_json_records records).2 ∧ r ∉ (process_json_records records).1))) ∧
    (∀ rows : List Row,
      (process_csv_records rows).1.length + (process_csv_records rows).2.length = rows.length ∧
      (process_csv_records rows).1.Sublist rows ∧
      (process_csv_records rows).2.Sublist rows ∧
      ((process_csv_records rows).1 ++ (process_csv_records rows).2).Perm rows ∧
      (∀ r, ¬(r ∈ (process_csv_records rows).1 ∧ r ∈ (process_csv_records rows).2)) ∧
      (∀ r ∈ rows,
        (r ∈ (process_csv_records rows).1 ∧ r ∉ (process_csv_records rows).2) ∨
        (r ∈ (process_csv_records rows).2 ∧ r ∉ (process_csv_records rows).1))) :=
  ⟨fun root => classify_partition xmlCustValid (findAllCustomers root),
   fun records => classify_partition jsonRecordValid records,
   fun rows => classify_partition csvRowValid rows⟩

/-- C3: the data-quality score is `total_valid / (total_valid +
total_invalid) * 100`, is `0` when both counters are `0`, always lies in
`[0, 100]`, and takes the values `0` and `75` at the two reference
points. -/
theorem c3_data_quality_score :
    dq_score 0 0 = 0 ∧ dq_score 3 1 = 75 ∧
    ∀ total_valid total_invalid : Nat,
      0 ≤ dq_score total_valid total_invalid ∧
      dq_score total_valid total_invalid ≤ 100 ∧
      (0 < total_valid + total_invalid →
        dq_score total_valid total_invalid =
          ((total_valid : ℚ) / ((total_valid : ℚ) + (total_invalid : ℚ))) * 100) := by
  refine ⟨by norm_num [dq_score], by norm_num [dq_score], fun tv ti => ?_⟩
  unfold dq_score
  by_cases h : 0 < tv + ti
  · have hpos : (0 : ℚ) < (tv : ℚ) + (ti : ℚ) := by exact_mod_cast h
    refine ⟨?_, ?_, fun _ => by simp [h]⟩
    · simp only [h, if_true]
      positivity
    · simp only [h, if_true]
      have hle : (tv : ℚ) ≤ (tv : ℚ) + (ti : ℚ) := by linarith [Nat.cast_nonneg (α := ℚ) ti]
      have hdiv : (tv : ℚ) / ((tv : ℚ) + (ti : ℚ)) ≤ 1 := div_le_one_of_le₀ hle (le_of_lt hpos)
      linarith
  · refine ⟨by simp [h], by simp [h], fun hc => absurd hc h⟩

/-- Closed instance discharging C3's hypothesis at `(3, 1)`. -/
theorem c3_data_quality_score_witness :
    0 < 3 + 1 ∧ dq_score 3 1 = ((3 : ℚ) / ((3 : ℚ) + (1 : ℚ))) * 100 :=
  ⟨by norm_num, (c3_data_quality_score.2.2 3 1).2.2 (by norm_num)⟩

/-- The spec's JSON rule set, stated as the conjunction of its validator
table (refinement reference for C5): CustomerID present with an all-digits
string form; Amount present, converting to a number strictly greater
than 0; Product present and non-empty after trimming; Date present and a
real `YYYY-MM-DD` calendar date. -/
def jsonRuleValid (rec : JVal) : Bool :=
  (match jGet rec "CustomerID" with
   | some cid => isDigitStr (pyStr cid)
   | none => false) &&
  (match jGet rec "Amount" with
   | some a => match pyFloat a with
     | .ok q => decide (0 < q)
     | .error _ => false
   | none => false) &&
  (match jGet rec "Product" with
   | some pv => match pyStrip pv with
     | .ok t => !(t == "")
     | .error _ => false
   | none => false) &&
  (match jGet rec "Date" with
   | some d => is_valid_date_val d
   | none => false)

theorem jsonRecordValid_eq_rule (rec : JVal) : jsonRecordValid rec = jsonRuleValid rec := by
  cases rec with
  | null => rfl
  | b bo => rfl
  | i n => rfl
  | f q => rfl
  | s t =>
    cases h : hasSub "CustomerID".data t.data <;>
      simp [jsonRecordValid, jsonCheck, pyContains, pyIndex, jsonRuleValid, jGet, h]
  | arr xs =>
    cases h : xs.any (fun x => match x with | .s t => t == "CustomerID" | _ => false) <;>
      simp [jsonRecordValid, jsonCheck, pyContains, pyIndex, jsonRuleValid, jGet, h]
  | obj kvs =>
    simp only [jsonRecordValid, jsonCheck, pyContains, pyIndex, jsonRuleValid, jGet]
    cases hcid : kvs.find? (fun kv => kv.1 == "CustomerID") with
    | none => simp
    | some kvcid =>
      simp only [Option.isSome_some, Option.map_some']
      cases hdig : isDigitStr (pyStr kvcid.2) with
      | false => simp [hdig]
      | true =>
        simp only [hdig, Bool.not_true, Bool.false_eq_true, if_false, Bool.true_and]
        cases hamt : kvs.find? (fun kv => kv.1 == "Amount") with
        | none => simp
        | some kvamt =>
          simp only [Option.isSome_some, Option.map_some']
          cases hfl : pyFloat kvamt.2 with
          | error e => simp
          | ok q =>
            by_cases hq : q ≤ 0
            · simp [hq, not_lt.mpr hq]
            · simp only [hq, if_false, decide_eq_true_eq, not_le.mp hq, Bool.true_and]
              cases hprod : kvs.find? (fun kv => kv.1 == "Product") with
              | none => simp
              | some kvprod =>
                simp only [Option.isSome_some, Option.map_some']
                cases hst : pyStrip kvprod.2 with
                | error e => simp
                | ok tp =>
                  by_cases htp : tp = ""
                  · simp [htp]
                  · simp only [htp, if_false, bne_iff_ne, ne_eq, not_false_eq_true,
                      beq_iff_eq, Bool.not_eq_true]
                    cases hdate : kvs.find? (fun kv => kv.1 == "Date") with
                    | none => simp [htp]
                    | some kvdate =>
                      cases hd : is_valid_date_val kvdate.2 <;> simp [hd, htp]

/-- C5: a JSON record is classified valid iff it satisfies the spec's four
conjunctive rules, and the two reference records (Amount `-5` vs `5`)
classify as the spec states. -/
theorem c5_json_record_rules :
    (∀ rec : JVal, jsonRecordValid rec = jsonRuleValid rec) ∧
    jsonRecordValid (.obj [("CustomerID", .s "1"), ("Amount", .i (-5)),
      ("Product", .s "X"), ("Date", .s "2024-01-01")]) = false ∧
    jsonRecordValid (.obj [("CustomerID", .s "1"), ("Amount", .i 5),
      ("Product", .s "X"), ("Date", .s "2024-01-01")]) = true :=
  ⟨jsonRecordValid_eq_rule, by decide, by decide⟩

/-- The spec's reference CSV rows, differing only in `Rating`. -/
def csvRowRating (rating : String) : Row :=
  [("CustomerID", some "1"), ("Rating", some rating), ("Feedback", some "ok")]

/-- C6: missing keys, coercion failures and malformed values route a record
to the invalid cohort without aborting the batch (the classifiers are total
and output counts always add up); in particular a CSV `Rating` of `"6"` is
invalid, `"5"` valid, and non-numeric `"abc"` invalid rather than a
crash. -/
theorem c6_errors_route_to_invalid :
    (∀ rows : List Row,
      (process_csv_records rows).1.length + (process_csv_records rows).2.length = rows.length) ∧
    (∀ records : List JVal,
      (process_json_records records).1.length + (process_json_records records).2.length =
        records.length) ∧
    (∀ row : Row, rowGet row "CustomerID" = none → csvRowValid row = false) ∧
    (∀ row : Row, ∀ rs : String, rowGet row "Rating" = some (some rs) →
      parseInt? rs = none → csvRowValid row = false) ∧
    (∀ rec : JVal, jGet rec "CustomerID" = none → jsonRecordValid rec = false) ∧
    (∀ rec : JVal, ∀ a : JVal, jGet rec "Amount" = some a → pyFloat a = .error () →
      jsonRecordValid rec = false) ∧
    csvRowValid (csvRowRating "6") = false ∧
    csvRowValid (csvRowRating "5") = true ∧
    csvRowValid (csvRowRating "abc") = false := by
  refine ⟨fun rows => (classify_partition csvRowValid rows).1,
          fun records => (classify_partition jsonRecordValid records).1,
          ?_, ?_, ?_, ?_, by decide, by decide, by decide⟩
  · intro row h
    simp [csvRowValid, csvCheck, h]
  · intro row rs hget hparse
    unfold csvRowValid csvCheck
    cases hc : rowGet row "CustomerID" with
    | none => rfl
    | some oc =>
      cases oc with
      | none => rfl
      | some cid =>
        cases hd : isDigitStr cid with
        | false => simp [hd]
        | true => simp [hd, hget, hparse]
  · intro rec h
    rw [jsonRecordValid_eq_rule]
    simp [jsonRuleValid, h]
  · intro rec a hget hfl
    rw [jsonRecordValid_eq_rule]
    simp [jsonRuleValid, hget, hfl]

/-- Closed instance discharging C6's hypotheses at concrete inputs. -/
theorem c6_errors_route_to_invalid_witness :
    csvRowValid [("Rating", some "3")] = false ∧
    csvRowValid [("CustomerID", some "7"), ("Rating", some "zz")] = false ∧
    jsonRecordValid (.obj [("Amount", .i 3)]) = false ∧
    jsonRecordValid (.obj [("CustomerID", .s "7"), ("Amount", .null)]) = false :=
  ⟨c6_errors_route_to_invalid.2.2.1 [("Rating", some "3")] rfl,
   c6_errors_route_to_invalid.2.2.2.1 [("CustomerID", some "7"), ("Rating", some "zz")] "zz"
     rfl (by decide),
   c6_errors_route_to_invalid.2.2.2.2.1 (.obj [("Amount", .i 3)]) rfl,
   c6_errors_route_to_invalid.2.2.2.2.2.1 (.obj [("CustomerID", .s "7"), ("Amount", .null)])
     .null rfl rfl⟩

/-! ## Facts about `str.replace` -/

theorem strData_append (s t : String) : (s ++ t).data = s.data ++ t.data := rfl

theorem replaceFuel_no_occ (pat rep : List Char) :
    ∀ (l : List Char) (n : Nat), hasSub pat l = false → replaceFuel pat rep n l = l := by
  intro l
  induction l with
  | nil => intro n _; cases n <;> rfl
  | cons c cs ih =>
    intro n h
    rw [hasSub, Bool.or_eq_false_iff] at h
    cases n with
    | zero => rfl
    | succ n =>
      rw [replaceFuel, if_neg (fun hc => by simp [h.1] at hc)]
      rw [ih n h.2]

theorem replaceFuel_head_match (pat rep l : List Char) (hne : pat ≠ [])
    (h : hasSub pat l = false) :
    replaceFuel pat rep (pat ++ l).length (pat ++ l) = rep ++ l := by
  cases pat with
  | nil => exact absurd rfl hne
  | cons p ps =>
    have hlen : (p :: (ps ++ l)).length = (ps ++ l).length + 1 := rfl
    show replaceFuel (p :: ps) rep (p :: (ps ++ l)).length (p :: (ps ++ l)) = rep ++ l
    rw [hlen, replaceFuel,
        if_pos ⟨hne, List.isPrefixOf_iff_prefix.mpr (List.prefix_append (p :: ps) l)⟩]
    have hdrop : (p :: (ps ++ l)).drop (p :: ps).length = l := List.drop_left (p :: ps) l
    rw [hdrop, replaceFuel_no_occ (p :: ps) rep l (ps ++ l).length h]

theorem pyReplace_no_occ (key pat rep : String) (h : strContains key pat = false) :
    pyReplace key pat rep = key := by
  unfold pyReplace
  rw [replaceFuel_no_occ pat.data rep.data key.data key.data.length h]

theorem pyReplace_raw (rest rep : String) (h : strContains rest "raw/" = false) :
    pyReplace ("raw/" ++ rest) "raw/" rep = rep ++ rest := by
  unfold pyReplace
  rw [strData_append]
  rw [replaceFuel_head_match "raw/".data rep.data rest.data (by decide) h]
  rfl

/-- Storage state for C9's overwrite demonstration: the triggering CSV file
does not live under `raw/`, one valid and one invalid row. -/
def c9store : S3State :=
  [("feedback.csv", .csv ["CustomerID", "Rating", "Feedback"] [["1", "5", "ok"], ["2", "9", "bad"]])]

/-- C9: `str.replace` rewrites every occurrence of `raw/`, not only a
leading prefix; for a key with no `raw/` occurrence both derived keys equal
the input key, so the cohort output overwrites the triggering object (the
demo run ends with the input object replaced by the error cohort, the last
cohort written to that same key). -/
theorem c9_output_key_derivation :
    (∀ key : String, strContains key "raw/" = false →
      pyReplace key "raw/" "validated/" = key ∧ pyReplace key "raw/" "error/" = key) ∧
    pyReplace "dir/raw/a/raw/b.xml" "raw/" "validated/" = "dir/validated/a/validated/b.xml" ∧
    (lambda_handler (mkS3Event "b" "feedback.csv") c9store).map (fun o => o.s3) =
      .ok [("feedback.csv", .csv ["CustomerID", "Rating", "Feedback"] [["2", "9", "bad"]])] :=
  ⟨fun key h => ⟨pyReplace_no_occ key "raw/" "validated/" h, pyReplace_no_occ key "raw/" "error/" h⟩,
   by decide, rfl⟩

/-- Closed instance discharging C9's hypothesis at a concrete key. -/
theorem c9_output_key_derivation_witness :
    strContains "data.json" "raw/" = false ∧
    pyReplace "data.json" "raw/" "validated/" = "data.json" ∧
    pyReplace "data.json" "raw/" "error/" = "data.json" :=
  ⟨by decide, (c9_output_key_derivation.1 "data.json" (by decide)).1,
   (c9_output_key_derivation.1 "data.json" (by decide)).2⟩

/-! ## The handler on a well-formed S3 notification -/

theorem lambda_handler_mkS3Event (b key : String) (s : S3State) :
    lambda_handler (mkS3Event b key) s =
      match s3lookup s key with
      | none =>
        .ok { status := "Failed to read file", s3 := s, failMetrics := 1, glue := none
              totalValid := 0, totalInvalid := 0, dq := 0 }
      | some content => mainFlow key content s := rfl

/-- C2 (counterexample): a `.xml` key whose stored content is not
well-formed XML makes `lambda_handler` exit with an uncaught exception
(`ET.ParseError` from `ET.fromstring`) — no status object is returned and
no failure metric is emitted. -/
theorem c2_counterexample_malformed_crashes :
    lambda_handler (mkS3Event "bucket" "raw/a.xml") [("raw/a.xml", Content.other)] =
      .error () := rfl

/-- C2 (amended): when the triggering file's content does not parse in its
declared format (malformed XML for a `.xml` key, invalid JSON for a
`.json` key), the invocation terminates with an uncaught exception rather
than a status object, and no failure metric is emitted; since the parse
precedes every write, no partial output exists. The guarded early paths
(`No Records`, `Failed to read file`) are the only failure statuses. -/
theorem c2_amended_malformed_is_uncaught :
    (∀ (s : S3State) (b key : String), strEndsWith key ".xml" = true →
      s3lookup s key = some Content.other →
      lambda_handler (mkS3Event b key) s = .error ()) ∧
    (∀ (s : S3State) (b key : String), strEndsWith key ".xml" = false →
      strEndsWith key ".json" = true →
      s3lookup s key = some Content.other →
      lambda_handler (mkS3Event b key) s = .error ()) := by
  constructor
  · intro s b key hx hl
    rw [lambda_handler_mkS3Event, hl]
    unfold mainFlow processCurrent
    rw [hx]
    rfl
  · intro s b key hx hj hl
    rw [lambda_handler_mkS3Event, hl]
    unfold mainFlow processCurrent
    rw [hx, hj]
    rfl

/-- Closed instance discharging C2's hypotheses at concrete inputs. -/
theorem c2_amended_malformed_is_uncaught_witness :
    strEndsWith "raw/w.xml" ".xml" = true ∧
    lambda_handler (mkS3Event "b" "raw/w.xml") [("raw/w.xml", Content.other)] = .error () ∧
    lambda_handler (mkS3Event "b" "raw/w.json") [("raw/w.json", Content.other)] = .error () :=
  ⟨by decide,
   c2_amended_malformed_is_uncaught.1 [("raw/w.xml", Content.other)] "b" "raw/w.xml"
     (by decide) rfl,
   c2_amended_malformed_is_uncaught.2 [("raw/w.json", Content.other)] "b" "raw/w.json"
     (by decide) (by decide) rfl⟩

/-- C7 (counterexample): an event whose first record exists but lacks the
`s3` field crashes the handler with an uncaught `KeyError` (lines 277–278
are outside any `try`) instead of returning a failure status with a
metric. -/
theorem c7_counterexample_missing_s3_crashes :
    lambda_handler (.obj [("Records", .arr [.obj []])]) [] = .error () := rfl

/-- C7 (amended): when `event["Records"][0]` itself cannot be extracted the
handler returns the `No Records` failure status with one failure metric and
no downstream effects, and when the triggering object cannot be read it
returns the `Failed to read file` status likewise; but an event whose first
record lacks the nested `s3`/`bucket`/`object` fields crashes with an
uncaught exception instead. -/
theorem c7_amended_early_failures :
    (∀ (event : JVal) (s : S3State), extractRecord0 event = .error () →
      lambda_handler event s =
        .ok { status := "No Records", s3 := s, failMetrics := 1, glue := none
              totalValid := 0, totalInvalid := 0, dq := 0 }) ∧
    (∀ (b key : String) (s : S3State), s3lookup s key = none →
      lambda_handler (mkS3Event b key) s =
        .ok { status := "Failed to read file", s3 := s, failMetrics := 1, glue := none
              totalValid := 0, totalInvalid := 0, dq := 0 }) := by
  constructor
  · intro event s h
    unfold lambda_handler
    rw [h]
  · intro b key s h
    rw [lambda_handler_mkS3Event, h]

/-- Closed instance discharging C7's hypotheses at concrete inputs. -/
theorem c7_amended_early_failures_witness :
    extractRecord0 (.obj []) = .error () ∧
    lambda_handler (.obj []) [] =
      .ok { status := "No Records", s3 := [], failMetrics := 1, glue := none
            totalValid := 0, totalInvalid := 0, dq := 0 } ∧
    lambda_handler (mkS3Event "b" "absent.csv") [] =
      .ok { status := "Failed to read file", s3 := [], failMetrics := 1, glue := none
            totalValid := 0, totalInvalid := 0, dq := 0 } :=
  ⟨rfl, c7_amended_early_failures.1 (.obj []) [] rfl,
   c7_amended_early_failures.2 "b" "absent.csv" [] rfl⟩

/-- C4: in every invocation that returns a status object, the Glue batch
job is started iff `total_valid > 0`, the failure metric fires whenever
`total_invalid > 0`, and the two are independent — the demo run has both. -/
theorem c4_trigger_policy :
    (∀ (event : JVal) (s : S3State) (out : Outcome), lambda_handler event s = .ok out →
      (out.glue.isSome = true ↔ 0 < out.totalValid) ∧
      (0 < out.totalInvalid → 1 ≤ out.failMetrics)) ∧
    (lambda_handler (mkS3Event "b" "raw/mix.json")
        [("raw/mix.json", .json (.arr
          [.obj [("CustomerID", .s "1"), ("Amount", .i 5), ("Product", .s "X"),
                 ("Date", .s "2024-01-01")],
           .obj [("CustomerID", .s "A")]]))]).map
      (fun o => (o.glue.isSome, o.failMetrics)) = .ok (true, 1) := by
  constructor
  · intro event s out h
    unfold lambda_handler at h
    split at h
    · cases h
      simp
    · split at h
      · exact absurd h (by simp)
      · split at h
        · exact absurd h (by simp)
        · split at h
          · exact absurd h (by simp)
          · split at h
            · exact absurd h (by simp)
            · split at h
              · exact absurd h (by simp)
              · split at h
                · split at h
                  · cases h
                    simp
                  · unfold mainFlow at h
                    split at h
                    · exact absurd h (by simp)
                    · dsimp only at h
                      split at h
                      · exact absurd h (by simp)
                      · split at h
                        · exact absurd h (by simp)
                        · cases h
                          dsimp only
                          constructor
                          · split <;> simp_all
                          · intro hti
                            split <;> simp_all
                · cases h
                  simp
  · rfl

/-- The outcome of the concrete `No Records` run used by C4's witness. -/
def c4out : Outcome :=
  { status := "No Records", s3 := [], failMetrics := 1, glue := none
    totalValid := 0, totalInvalid := 0, dq := 0 }

/-- Closed instance discharging C4's hypothesis at a concrete run. -/
theorem c4_trigger_policy_witness :
    lambda_handler (.obj []) ([] : S3State) = .ok c4out ∧
    (c4out.glue.isSome = true ↔ 0 < c4out.totalValid) ∧
    (0 < c4out.totalInvalid → 1 ≤ c4out.failMetrics) :=
  ⟨rfl, c4_trigger_policy.1 (.obj []) [] c4out rfl⟩

/-! ## Storage projections under `put_object` -/

theorem filterPfx_s3put_pos (pre k : String) (v : Content) (s : S3State)
    (h : strStartsWith k pre = true) :
    filterPfx pre (s3put s k v) = s3put (filterPfx pre s) k v := by
  induction s with
  | nil => simp [s3put, filterPfx, h]
  | cons kv rest ih =>
    obtain ⟨k', v'⟩ := kv
    simp only [filterPfx] at ih
    by_cases hk : k' = k
    · subst hk
      simp [s3put, filterPfx, h]
    · cases hk' : strStartsWith k' pre with
      | true => simp [s3put, hk, filterPfx, hk', ih]
      | false => simp [s3put, hk, filterPfx, hk', ih]

theorem filterPfx_s3put_neg (pre k : String) (v : Content) (s : S3State)
    (h : strStartsWith k pre = false) :
    filterPfx pre (s3put s k v) = filterPfx pre s := by
  induction s with
  | nil => simp [s3put, filterPfx, h]
  | cons kv rest ih =>
    obtain ⟨k', v'⟩ := kv
    simp only [filterPfx] at ih
    by_cases hk : k' = k
    · subst hk
      simp [s3put, filterPfx, h]
    · cases hk' : strStartsWith k' pre with
      | true => simp [s3put, hk, filterPfx, hk', ih]
      | false => simp [s3put, hk, filterPfx, hk', ih]

/-- The prefix listing after a sequence of puts, as a function of the
initial prefix listing alone. -/
def putsProj (pre : String) (fl : S3State) (puts : List (String × Content)) : S3State :=
  puts.foldl (fun fl kv => if strStartsWith kv.1 pre then s3put fl kv.1 kv.2 else fl) fl

theorem filterPfx_afterPuts (pre : String) (s : S3State) (puts : List (String × Content)) :
    filterPfx pre (afterPuts s puts) = putsProj pre (filterPfx pre s) puts := by
  induction puts generalizing s with
  | nil => rfl
  | cons kv rest ih =>
    show filterPfx pre (afterPuts (s3put s kv.1 kv.2) rest) =
      putsProj pre (filterPfx pre s) (kv :: rest)
    rw [ih]
    show putsProj pre (filterPfx pre (s3put s kv.1 kv.2)) rest =
      putsProj pre (if strStartsWith kv.1 pre then s3put (filterPfx pre s) kv.1 kv.2
                    else filterPfx pre s) rest
    cases hk : strStartsWith kv.1 pre with
    | true => rw [filterPfx_s3put_pos pre kv.1 kv.2 s hk, if_pos rfl]
    | false => rw [filterPfx_s3put_neg pre kv.1 kv.2 s hk, if_neg (by simp)]

theorem mainFlow_dq_proj (key : String) (content : Content) (s1 s2 : S3State)
    (hv : filterPfx "validated/" s1 = filterPfx "validated/" s2)
    (he : filterPfx "error/" s1 = filterPfx "error/" s2) :
    (mainFlow key content s1).map Outcome.dq = (mainFlow key content s2).map Outcome.dq := by
  unfold mainFlow
  cases hp : processCurrent key content with
  | error e => rfl
  | ok pcc =>
    obtain ⟨puts, cv, ci⟩ := pcc
    dsimp only
    rw [filterPfx_afterPuts "validated/" s1 puts, filterPfx_afterPuts "validated/" s2 puts,
        filterPfx_afterPuts "error/" s1 puts, filterPfx_afterPuts "error/" s2 puts, hv, he]
    cases rescanSum rescanValidOne (putsProj "validated/" (filterPfx "validated/" s2) puts) with
    | error e => rfl
    | ok rv =>
      cases rescanSum rescanInvalidOne (putsProj "error/" (filterPfx "error/" s2) puts) with
      | error e => rfl
      | ok ri => rfl

/-- C8: the invocation's data-quality score is a pure function of the
stored contents under the `validated/` and `error/` prefixes plus the
triggering file's content — two runs on storage states agreeing on those
projections produce identical scores (and two runs on an identical state
trivially so). -/
theorem c8_score_determinism :
    ∀ (b key : String) (s1 s2 : S3State),
      filterPfx "validated/" s1 = filterPfx "validated/" s2 →
      filterPfx "error/" s1 = filterPfx "error/" s2 →
      s3lookup s1 key = s3lookup s2 key →
      (lambda_handler (mkS3Event b key) s1).map Outcome.dq =
        (lambda_handler (mkS3Event b key) s2).map Outcome.dq := by
  intro b key s1 s2 hv he hl
  rw [lambda_handler_mkS3Event, lambda_handler_mkS3Event, hl]
  cases hc : s3lookup s2 key with
  | none => rfl
  | some content => exact mainFlow_dq_proj key content s1 s2 hv he

/-- Closed instance discharging C8's hypotheses: two different states with
identical `validated/`/`error/` projections and the same triggering
object. -/
theorem c8_score_determinism_witness :
    filterPfx "validated/" [("raw/c8.json", Content.json (.arr []))] =
      filterPfx "validated/" [("raw/c8.json", Content.json (.arr [])), ("misc/z.txt", .other)] ∧
    filterPfx "error/" [("raw/c8.json", Content.json (.arr []))] =
      filterPfx "error/" [("raw/c8.json", Content.json (.arr [])), ("misc/z.txt", .other)] ∧
    (lambda_handler (mkS3Event "b" "raw/c8.json") [("raw/c8.json", Content.json (.arr []))]).map
        Outcome.dq =
      (lambda_handler (mkS3Event "b" "raw/c8.json")
        [("raw/c8.json", Content.json (.arr [])), ("misc/z.txt", .other)]).map Outcome.dq :=
  ⟨rfl, rfl,
   c8_score_determinism "b" "raw/c8.json"
     [("raw/c8.json", Content.json (.arr []))]
     [("raw/c8.json", Content.json (.arr [])), ("misc/z.txt", .other)] rfl rfl rfl⟩

/-! ## Suffix and prefix facts about keys -/

theorem strEndsWith_append (pre rest ext : String) (h : strEndsWith rest ext = true) :
    strEndsWith (pre ++ rest) ext = true := by
  unfold strEndsWith at h ⊢
  rw [strData_append, List.isSuffixOf_iff_suffix] at *
  exact h.trans (List.suffix_append pre.data rest.data)

theorem getLast_of_endsWith (k ext : String) (c : Char) (h : strEndsWith k ext = true)
    (hc : ext.data.getLast? = some c) : k.data.getLast? = some c := by
  unfold strEndsWith at h
  rw [List.isSuffixOf_iff_suffix] at h
  obtain ⟨t, ht⟩ := h
  rw [← ht, List.getLast?_append, hc]
  rfl

theorem endsWith_excl (k a b : String) (ca cb : Char)
    (hla : a.data.getLast? = some ca) (hlb : b.data.getLast? = some cb) (hne : ca ≠ cb)
    (h : strEndsWith k a = true) : strEndsWith k b = false := by
  cases hb : strEndsWith k b with
  | false => rfl
  | true =>
    have h1 := getLast_of_endsWith k a ca h hla
    have h2 := getLast_of_endsWith k b cb hb hlb
    rw [h1] at h2
    exact absurd (Option.some_injective _ h2) hne

theorem strStartsWith_append_self (p t : String) : strStartsWith (p ++ t) p = true := by
  unfold strStartsWith
  rw [strData_append, List.isPrefixOf_iff_prefix]
  exact List.prefix_append p.data t.data

theorem validated_not_error (t : String) :
    strStartsWith ("validated/" ++ t) "error/" = false := rfl

theorem error_not_validated (t : String) :
    strStartsWith ("error/" ++ t) "validated/" = false := rfl

/-- The `put_object` calls one cohort contributes: one put when the cohort
is non-empty, none otherwise. -/
def optPut (k : String) (b : Option Content) : List (String × Content) :=
  match b with
  | some c => [(k, c)]
  | none => []

theorem rescanSum_single (one : String → Content → Except Unit Nat) (k : String) (c : Content)
    (n : Nat) (h : one k c = .ok n) : rescanSum one [(k, c)] = .ok n := by
  unfold rescanSum
  rw [h]
  unfold rescanSum
  rfl

/-- With no prior objects under `validated/` or `error/`, an invocation
whose current-file processing emits the canonical two cohort puts — each
rescanning back to exactly its own record count — ends with every current
record counted twice. -/
theorem mainFlow_double (key : String) (content : Content) (s : S3State)
    (vkey ekey : String) (vb eb : Option Content) (cv ci : Nat)
    (hv0 : filterPfx "validated/" s = []) (he0 : filterPfx "error/" s = [])
    (hpc : processCurrent key content = .ok (optPut vkey vb ++ optPut ekey eb, cv, ci))
    (hvk1 : strStartsWith vkey "validated/" = true)
    (hvk2 : strStartsWith vkey "error/" = false)
    (hek1 : strStartsWith ekey "validated/" = false)
    (hek2 : strStartsWith ekey "error/" = true)
    (hrv : ∀ c, vb = some c → rescanValidOne vkey c = .ok cv)
    (hrv0 : vb = none → cv = 0)
    (hre : ∀ c, eb = some c → rescanInvalidOne ekey c = .ok ci)
    (hre0 : eb = none → ci = 0) :
    (mainFlow key content s).map (fun o => (o.totalValid, o.totalInvalid)) =
      .ok (2 * cv, 2 * ci) := by
  unfold mainFlow
  rw [hpc]
  dsimp only
  rw [filterPfx_afterPuts, filterPfx_afterPuts, hv0, he0]
  cases vb with
  | none =>
    have hcv := hrv0 rfl
    cases eb with
    | none =>
      have hci := hre0 rfl
      simp only [optPut, List.nil_append, putsProj, List.foldl_nil, rescanSum]
      dsimp only [Except.map]
      simp only [Except.ok.injEq, Prod.mk.injEq]
      omega
    | some ce =>
      have hce := hre ce rfl
      simp only [optPut, List.nil_append, putsProj, List.foldl_cons, List.foldl_nil,
        hek1, hek2, if_true, if_false, Bool.false_eq_true]
      rw [show s3put ([] : S3State) ekey ce = [(ekey, ce)] from rfl]
      rw [rescanSum_single rescanInvalidOne ekey ce ci hce]
      simp only [rescanSum]
      dsimp only [Except.map]
      simp only [Except.ok.injEq, Prod.mk.injEq]
      omega
  | some cvb =>
    have hcb := hrv cvb rfl
    cases eb with
    | none =>
      have hci := hre0 rfl
      simp only [optPut, List.append_nil, putsProj, List.foldl_cons, List.foldl_nil,
        hvk1, hvk2, if_true, if_false, Bool.false_eq_true]
      rw [show s3put ([] : S3State) vkey cvb = [(vkey, cvb)] from rfl]
      rw [rescanSum_single rescanValidOne vkey cvb cv hcb]
      simp only [rescanSum]
      dsimp only [Except.map]
      simp only [Except.ok.injEq, Prod.mk.injEq]
      omega
    | some ce =>
      have hce := hre ce rfl
      simp only [optPut, List.cons_append, List.nil_append, putsProj, List.foldl_cons,
        List.foldl_nil, hvk1, hvk2, hek1, hek2, if_true, if_false, Bool.false_eq_true]
      rw [show s3put ([] : S3State) vkey cvb = [(vkey, cvb)] from rfl]
      rw [show s3put ([] : S3State) ekey ce = [(ekey, ce)] from rfl]
      rw [rescanSum_single rescanValidOne vkey cvb cv hcb,
          rescanSum_single rescanInvalidOne ekey ce ci hce]
      dsimp only [Except.map]
      simp only [Except.ok.injEq, Prod.mk.injEq]
      omega

/-! ## Re-validating a just-written cohort -/

theorem count_valid_revalid (p : α → Bool) (l : List α) :
    ((classify p ((classify p l).1)).1).length = ((classify p l).1).length := by
  simp [classify_eq_filter, List.filter_filter]

theorem count_invalid_revalid (p : α → Bool) (l : List α) :
    ((classify p ((classify p l).2)).2).length = ((classify p l).2).length := by
  simp [classify_eq_filter, List.filter_filter]

theorem rescanValidOne_json (k : String) (recs : List JVal)
    (hx : strEndsWith k ".xml" = false) (hj : strEndsWith k ".json" = true) :
    rescanValidOne k (.json (.arr (process_json_records recs).1)) =
      .ok (process_json_records recs).1.length := by
  unfold rescanValidOne
  rw [hx, hj]
  simp only [Bool.false_eq_true, if_false, if_true, readAsJson, jsonTopIter]
  exact congrArg Except.ok (count_valid_revalid jsonRecordValid recs)

theorem rescanInvalidOne_json (k : String) (recs : List JVal)
    (hx : strEndsWith k ".xml" = false) (hj : strEndsWith k ".json" = true) :
    rescanInvalidOne k (.json (.arr (process_json_records recs).2)) =
      .ok (process_json_records recs).2.length := by
  unfold rescanInvalidOne
  rw [hx, hj]
  simp only [Bool.false_eq_true, if_false, if_true, readAsJson, jsonTopIter]
  exact congrArg Except.ok (count_invalid_revalid jsonRecordValid recs)

/-- The JSON instance of the corrected C10: on storage with no prior
`validated/`/`error/` objects, a `raw/` JSON file's records are counted
exactly twice. -/
theorem c10_json_double (b rest : String) (s : S3State) (recs : List JVal)
    (hnr : strContains rest "raw/" = false)
    (hext : strEndsWith rest ".json" = true)
    (hv0 : filterPfx "validated/" s = []) (he0 : filterPfx "error/" s = [])
    (hl : s3lookup s ("raw/" ++ rest) = some (.json (.arr recs))) :
    (lambda_handler (mkS3Event b ("raw/" ++ rest)) s).map
        (fun o => (o.totalValid, o.totalInvalid)) =
      .ok (2 * (process_json_records recs).1.length,
           2 * (process_json_records recs).2.length) := by
  have hkj : strEndsWith ("raw/" ++ rest) ".json" = true :=
    strEndsWith_append "raw/" rest ".json" hext
  have hkx : strEndsWith ("raw/" ++ rest) ".xml" = false :=
    endsWith_excl ("raw/" ++ rest) ".json" ".xml" 'n' 'l' rfl rfl (by decide) hkj
  have hvkey : pyReplace ("raw/" ++ rest) "raw/" "validated/" = "validated/" ++ rest :=
    pyReplace_raw rest "validated/" hnr
  have hekey : pyReplace ("raw/" ++ rest) "raw/" "error/" = "error/" ++ rest :=
    pyReplace_raw rest "error/" hnr
  have hvj : strEndsWith ("validated/" ++ rest) ".json" = true :=
    strEndsWith_append "validated/" rest ".json" hext
  have hvx : strEndsWith ("validated/" ++ rest) ".xml" = false :=
    endsWith_excl ("validated/" ++ rest) ".json" ".xml" 'n' 'l' rfl rfl (by decide) hvj
  have hej : strEndsWith ("error/" ++ rest) ".json" = true :=
    strEndsWith_append "error/" rest ".json" hext
  have hex : strEndsWith ("error/" ++ rest) ".xml" = false :=
    endsWith_excl ("error/" ++ rest) ".json" ".xml" 'n' 'l' rfl rfl (by decide) hej
  have hpc : processCurrent ("raw/" ++ rest) (Content.json (.arr recs)) =
      .ok (optPut ("validated/" ++ rest)
             (if (process_json_records recs).1.isEmpty then none
              else some (.json (.arr (process_json_records recs).1))) ++
           optPut ("error/" ++ rest)
             (if (process_json_records recs).2.isEmpty then none
              else some (.json (.arr (process_json_records recs).2))),
           (process_json_records recs).1.length, (process_json_records recs).2.length) := by
    unfold processCurrent
    rw [hkx, hkj]
    simp only [Bool.false_eq_true, if_false, if_true, readAsJson, jsonTopIter]
    rw [hvkey, hekey]
    cases h1 : (process_json_records recs).1.isEmpty <;>
      cases h2 : (process_json_records recs).2.isEmpty <;> simp [optPut]
  rw [lambda_handler_mkS3Event, hl]
  show (mainFlow ("raw/" ++ rest) (Content.json (.arr recs)) s).map
      (fun o => (o.totalValid, o.totalInvalid)) = _
  refine mainFlow_double ("raw/" ++ rest) (Content.json (.arr recs)) s
    ("validated/" ++ rest) ("error/" ++ rest) _ _
    (process_json_records recs).1.length (process_json_records recs).2.length hv0 he0 hpc
    (strStartsWith_append_self "validated/" rest) (validated_not_error rest)
    (error_not_validated rest) (strStartsWith_append_self "error/" rest)
    ?_ ?_ ?_ ?_
  · intro c hc
    by_cases h1 : (process_json_records recs).1.isEmpty
    · rw [if_pos h1] at hc; cases hc
    · rw [if_neg h1] at hc
      cases hc
      exact rescanValidOne_json ("validated/" ++ rest) recs hvx hvj
  · intro h
    by_cases h1 : (process_json_records recs).1.isEmpty
    · simpa using congrArg List.length (List.isEmpty_iff.mp h1)
    · rw [if_neg h1] at h; cases h
  · intro c hc
    by_cases h2 : (process_json_records recs).2.isEmpty
    · rw [if_pos h2] at hc; cases hc
    · rw [if_neg h2] at hc
      cases hc
      exact rescanInvalidOne_json ("error/" ++ rest) recs hex hej
  · intro h
    by_cases h2 : (process_json_records recs).2.isEmpty
    · simpa using congrArg List.length (List.isEmpty_iff.mp h2)
    · rw [if_neg h2] at h; cases h

/-! ## CSV round-trip through `DictWriter`/`DictReader` -/

theorem rowKeys_mkRow : ∀ (h vs : List String), rowKeys (mkRow h vs) = h := by
  intro h
  induction h with
  | nil => intro vs; cases vs <;> rfl
  | cons a hs ih =>
    intro vs
    cases vs with
    | nil => simp [mkRow, rowKeys] at ih ⊢; exact ih []
    | cons v vs => simp [mkRow, rowKeys] at ih ⊢; exact ih vs

theorem rowGet_cons (k : String) (v : Option String) (rest : Row) (f : String) :
    rowGet ((k, v) :: rest) f = if k = f then some v else rowGet rest f := by
  unfold rowGet
  by_cases hkf : k = f
  · subst hkf
    simp [List.find?]
  · rw [List.find?_cons_of_neg _ (by simp [hkf]), if_neg hkf]

theorem rowGet_mkRow_map (h : List String) (val : String → String) (f : String) :
    rowGet (mkRow h (h.map val)) f = if f ∈ h then some (some (val f)) else none := by
  induction h with
  | nil => simp [mkRow, rowGet]
  | cons a hs ih =>
    show rowGet ((a, some (val a)) :: mkRow hs (hs.map val)) f = _
    rw [rowGet_cons]
    by_cases haf : a = f
    · subst haf
      simp
    · rw [if_neg haf, ih]
      have hfa : ¬(f = a) := fun hh => haf hh.symm
      simp [List.mem_cons, hfa]

/-- The re-decoded form of a stored row: header fields zipped with the
written cell strings. -/
def reencodeRow (h : List String) (r : Row) : Row :=
  mkRow h (h.map (fun f => rowFlat (rowGet r f)))

theorem rowGet_reencode (h : List String) (r : Row) (f : String) :
    rowGet (reencodeRow h r) f = if f ∈ h then some (some (rowFlat (rowGet r f))) else none :=
  rowGet_mkRow_map h (fun g => rowFlat (rowGet r g)) f

theorem rowGet_eq_none (r : Row) (f : String) : rowGet r f = none ↔ f ∉ rowKeys r := by
  unfold rowGet rowKeys
  rw [Option.map_eq_none', List.find?_eq_none]
  constructor
  · intro h hf
    obtain ⟨kv, hkv, hk⟩ := List.mem_map.mp hf
    exact h kv hkv (by simp [hk])
  · intro h kv hkv hbeq
    exact h (List.mem_map.mpr ⟨kv, hkv, by simpa using hbeq⟩)

theorem csvRowValid_reencode (h : List String) (r : Row) (hk : rowKeys r = h) :
    csvRowValid (reencodeRow h r) = csvRowValid r := by
  have hmemiff : ∀ f, rowGet r f = none ↔ f ∉ h := fun f => hk ▸ rowGet_eq_none r f
  have hsome : ∀ f oc, rowGet r f = some oc → f ∈ h := by
    intro f oc hf
    by_contra hn
    rw [(hmemiff f).mpr hn] at hf
    cases hf
  unfold csvRowValid csvCheck
  rw [rowGet_reencode, rowGet_reencode, rowGet_reencode]
  cases hc : rowGet r "CustomerID" with
  | none =>
    rw [if_neg ((hmemiff "CustomerID").mp hc)]
  | some oc =>
    rw [if_pos (hsome "CustomerID" oc hc)]
    cases oc with
    | none => simp [rowFlat, show isDigitStr "" = false from rfl]
    | some cid =>
      simp only [rowFlat]
      cases hd : isDigitStr cid with
      | false => simp [hd]
      | true =>
        simp only [hd, Bool.not_true, Bool.false_eq_true, if_false]
        cases hr : rowGet r "Rating" with
        | none => rw [if_neg ((hmemiff "Rating").mp hr)]
        | some orr =>
          rw [if_pos (hsome "Rating" orr hr)]
          cases orr with
          | none => simp [rowFlat, show parseInt? "" = none from rfl]
          | some rs =>
            simp only [rowFlat]
            cases hp : parseInt? rs with
            | none => simp [hp]
            | some n =>
              simp only [hp]
              by_cases h1 : n < 1
              · simp [h1]
              · by_cases h5 : n > 5
                · simp [h1, h5]
                · simp only [h1, h5, if_false]
                  cases hf : rowGet r "Feedback" with
                  | none => rw [if_neg ((hmemiff "Feedback").mp hf)]
                  | some off =>
                    rw [if_pos (hsome "Feedback" off hf)]
                    cases off with
                    | none => simp [rowFlat, show strTrim "" = "" from rfl]
                    | some fb => simp [rowFlat]

theorem readAsCsv_serialize (header : List String) (l : List Row)
    (hk : ∀ r ∈ l, rowKeys r = header) :
    readAsCsv (csvSerialize l) = l.map (reencodeRow header) := by
  cases l with
  | nil => rfl
  | cons r0 rest =>
    show readAsCsv (.csv (rowKeys r0)
        ((r0 :: rest).map (fun r => (rowKeys r0).map (fun f => rowFlat (rowGet r f))))) = _
    rw [hk r0 (by simp)]
    show ((r0 :: rest).map (fun r => header.map (fun f => rowFlat (rowGet r f)))).map
        (mkRow header) = (r0 :: rest).map (reencodeRow header)
    rw [List.map_map]
    rfl

theorem rows_of_readAsCsv (header : List String) (rawRows : List (List String)) :
    ∀ r ∈ readAsCsv (.csv header rawRows), rowKeys r = header := by
  intro r hr
  unfold readAsCsv at hr
  obtain ⟨vs, _, rfl⟩ := List.mem_map.mp hr
  exact rowKeys_mkRow header vs

theorem csv_count_valid (header : List String) (rows0 : List Row)
    (hk0 : ∀ r ∈ rows0, rowKeys r = header) :
    (process_csv_records (readAsCsv (csvSerialize (process_csv_records rows0).1))).1.length =
      (process_csv_records rows0).1.length := by
  have hsub : ∀ r ∈ (process_csv_records rows0).1, r ∈ rows0 := by
    intro r hr
    rw [process_csv_records, classify_eq_filter] at hr
    exact (List.mem_filter.mp hr).1
  have hval : ∀ r ∈ (process_csv_records rows0).1, csvRowValid r = true := by
    intro r hr
    rw [process_csv_records, classify_eq_filter] at hr
    exact (List.mem_filter.mp hr).2
  rw [readAsCsv_serialize header (process_csv_records rows0).1
        (fun r hr => hk0 r (hsub r hr))]
  rw [process_csv_records, classify_eq_filter]
  have : ((process_csv_records rows0).1.map (reencodeRow header)).filter csvRowValid =
      (process_csv_records rows0).1.map (reencodeRow header) := by
    rw [List.filter_eq_self]
    intro a ha
    obtain ⟨r, hr, rfl⟩ := List.mem_map.mp ha
    rw [csvRowValid_reencode header r (hk0 r (hsub r hr))]
    exact hval r hr
  rw [this, List.length_map]

theorem csv_count_invalid (header : List String) (rows0 : List Row)
    (hk0 : ∀ r ∈ rows0, rowKeys r = header) :
    (process_csv_records (readAsCsv (csvSerialize (process_csv_records rows0).2))).2.length =
      (process_csv_records rows0).2.length := by
  have hsub : ∀ r ∈ (process_csv_records rows0).2, r ∈ rows0 := by
    intro r hr
    rw [process_csv_records, classify_eq_filter] at hr
    exact (List.mem_filter.mp hr).1
  have hval : ∀ r ∈ (process_csv_records rows0).2, csvRowValid r = false := by
    intro r hr
    rw [process_csv_records, classify_eq_filter] at hr
    simpa using (List.mem_filter.mp hr).2
  rw [readAsCsv_serialize header (process_csv_records rows0).2
        (fun r hr => hk0 r (hsub r hr))]
  rw [process_csv_records, classify_eq_filter]
  have : ((process_csv_records rows0).2.map (reencodeRow header)).filter
      (fun r => !csvRowValid r) = (process_csv_records rows0).2.map (reencodeRow header) := by
    rw [List.filter_eq_self]
    intro a ha
    obtain ⟨r, hr, rfl⟩ := List.mem_map.mp ha
    rw [Bool.not_eq_true', csvRowValid_reencode header r (hk0 r (hsub r hr))]
    exact hval r hr
  rw [this, List.length_map]

/-- The CSV instance of the corrected C10: on storage with no prior
`validated/`/`error/` objects, a `raw/` CSV file's rows are counted
exactly twice. -/
theorem c10_csv_double (b rest : String) (s : S3State) (header : List String)
    (rawRows : List (List String))
    (hnr : strContains rest "raw/" = false)
    (hext : strEndsWith rest ".csv" = true)
    (hv0 : filterPfx "validated/" s = []) (he0 : filterPfx "error/" s = [])
    (hl : s3lookup s ("raw/" ++ rest) = some (.csv header rawRows)) :
    (lambda_handler (mkS3Event b ("raw/" ++ rest)) s).map
        (fun o => (o.totalValid, o.totalInvalid)) =
      .ok (2 * (process_csv_records (readAsCsv (.csv header rawRows))).1.length,
           2 * (process_csv_records (readAsCsv (.csv header rawRows))).2.length) := by
  have hkc : strEndsWith ("raw/" ++ rest) ".csv" = true :=
    strEndsWith_append "raw/" rest ".csv" hext
  have hkx : strEndsWith ("raw/" ++ rest) ".xml" = false :=
    endsWith_excl ("raw/" ++ rest) ".csv" ".xml" 'v' 'l' rfl rfl (by decide) hkc
  have hkj : strEndsWith ("raw/" ++ rest) ".json" = false :=
    endsWith_excl ("raw/" ++ rest) ".csv" ".json" 'v' 'n' rfl rfl (by decide) hkc
  have hvkey : pyReplace ("raw/" ++ rest) "raw/" "validated/" = "validated/" ++ rest :=
    pyReplace_raw rest "validated/" hnr
  have hekey : pyReplace ("raw/" ++ rest) "raw/" "error/" = "error/" ++ rest :=
    pyReplace_raw rest "error/" hnr
  have hvc : strEndsWith ("validated/" ++ rest) ".csv" = true :=
    strEndsWith_append "validated/" rest ".csv" hext
  have hvx : strEndsWith ("validated/" ++ rest) ".xml" = false :=
    endsWith_excl ("validated/" ++ rest) ".csv" ".xml" 'v' 'l' rfl rfl (by decide) hvc
  have hvj : strEndsWith ("validated/" ++ rest) ".json" = false :=
    endsWith_excl ("validated/" ++ rest) ".csv" ".json" 'v' 'n' rfl rfl (by decide) hvc
  have hec : strEndsWith ("error/" ++ rest) ".csv" = true :=
    strEndsWith_append "error/" rest ".csv" hext
  have hex : strEndsWith ("error/" ++ rest) ".xml" = false :=
    endsWith_excl ("error/" ++ rest) ".csv" ".xml" 'v' 'l' rfl rfl (by decide) hec
  have hej : strEndsWith ("error/" ++ rest) ".json" = false :=
    endsWith_excl ("error/" ++ rest) ".csv" ".json" 'v' 'n' rfl rfl (by decide) hec
  have hk0 := rows_of_readAsCsv header rawRows
  have hpc : processCurrent ("raw/" ++ rest) (Content.csv header rawRows) =
      .ok (optPut ("validated/" ++ rest)
             (if (process_csv_records (readAsCsv (.csv header rawRows))).1.isEmpty then none
              else some (csvSerialize (process_csv_records (readAsCsv (.csv header rawRows))).1)) ++
           optPut ("error/" ++ rest)
             (if (process_csv_records (readAsCsv (.csv header rawRows))).2.isEmpty then none
              else some (csvSerialize (process_csv_records (readAsCsv (.csv header rawRows))).2)),
           (process_csv_records (readAsCsv (.csv header rawRows))).1.length,
           (process_csv_records (readAsCsv (.csv header rawRows))).2.length) := by
    unfold processCurrent
    rw [hkx, hkj, hkc]
    simp only [Bool.false_eq_true, if_false, if_true]
    rw [hvkey, hekey]
    cases h1 : (process_csv_records (readAsCsv (.csv header rawRows))).1.isEmpty <;>
      cases h2 : (process_csv_records (readAsCsv (.csv header rawRows))).2.isEmpty <;>
        simp [optPut, h1, h2]
  rw [lambda_handler_mkS3Event, hl]
  show (mainFlow ("raw/" ++ rest) (Content.csv header rawRows) s).map
      (fun o => (o.totalValid, o.totalInvalid)) = _
  refine mainFlow_double ("raw/" ++ rest) (Content.csv header rawRows) s
    ("validated/" ++ rest) ("error/" ++ rest) _ _
    (process_csv_records (readAsCsv (.csv header rawRows))).1.length
    (process_csv_records (readAsCsv (.csv header rawRows))).2.length hv0 he0 hpc
    (strStartsWith_append_self "validated/" rest) (validated_not_error rest)
    (error_not_validated rest) (strStartsWith_append_self "error/" rest)
    ?_ ?_ ?_ ?_
  · intro c hc
    by_cases h1 : (process_csv_records (readAsCsv (.csv header rawRows))).1.isEmpty
    · rw [if_pos h1] at hc; cases hc
    · rw [if_neg h1] at hc
      cases hc
      unfold rescanValidOne
      rw [hvx, hvj, hvc]
      simp only [Bool.false_eq_true, if_false, if_true]
      exact congrArg Except.ok (csv_count_valid header (readAsCsv (.csv header rawRows)) hk0)
  · intro h
    by_cases h1 : (process_csv_records (readAsCsv (.csv header rawRows))).1.isEmpty
    · simpa using congrArg List.length (List.isEmpty_iff.mp h1)
    · rw [if_neg h1] at h; cases h
  · intro c hc
    by_cases h2 : (process_csv_records (readAsCsv (.csv header rawRows))).2.isEmpty
    · rw [if_pos h2] at hc; cases hc
    · rw [if_neg h2] at hc
      cases hc
      unfold rescanInvalidOne
      rw [hex, hej, hec]
      simp only [Bool.false_eq_true, if_false, if_true]
      exact congrArg Except.ok (csv_count_invalid header (readAsCsv (.csv header rawRows)) hk0)
  · intro h
    by_cases h2 : (process_csv_records (readAsCsv (.csv header rawRows))).2.isEmpty
    · simpa using congrArg List.length (List.isEmpty_iff.mp h2)
    · rw [if_neg h2] at h; cases h

/-! ## Re-wrapped XML cohorts -/

mutual

theorem tag_of_mem_findCust (e : XmlElem) (r : XmlElem) (h : r ∈ findCust e) :
    r.tag = "Customer" := by
  cases e with
  | mk t tx cs =>
    rw [findCust] at h
    rcases List.mem_append.mp h with h1 | h2
    · by_cases ht : t = "Customer"
      · rw [if_pos ht] at h1
        rw [List.mem_singleton.mp h1]
        exact ht
      · rw [if_neg ht] at h1
        cases h1
    · exact tag_of_mem_findCustList cs r h2

theorem tag_of_mem_findCustList (l : List XmlElem) (r : XmlElem) (h : r ∈ findCustList l) :
    r.tag = "Customer" := by
  cases l with
  | nil =>
    rw [findCustList] at h
    cases h
  | cons c cs =>
    rw [findCustList] at h
    rcases List.mem_append.mp h with h1 | h2
    · exact tag_of_mem_findCust c r h1
    · exact tag_of_mem_findCustList cs r h2

end

/-- A list of leaf `Customer` elements (no nested `Customer` descendants)
is returned unchanged by the `.//Customer` search. -/
theorem findCustList_id (l : List XmlElem)
    (h : ∀ c ∈ l, c.tag = "Customer" ∧ findCustList c.children = []) : findCustList l = l := by
  induction l with
  | nil => rfl
  | cons c cs ih =>
    rw [findCustList]
    obtain ⟨ht, hc⟩ := h c (by simp)
    cases c with
    | mk t tx k =>
      simp only [XmlElem.tag] at ht
      simp only [XmlElem.children] at hc
      rw [findCust, if_pos ht, hc]
      rw [ih (fun c hcm => h c (List.mem_cons_of_mem _ hcm))]
      rfl

theorem rescanValidOne_xml (k : String) (root : XmlElem)
    (hx : strEndsWith k ".xml" = true)
    (hnest : ∀ c ∈ findAllCustomers root, findCustList c.children = []) :
    rescanValidOne k (.xml (build_xml (process_xml_records root).1)) =
      .ok (process_xml_records root).1.length := by
  unfold rescanValidOne
  rw [hx]
  simp only [if_true, readAsXml]
  have hmem : ∀ c ∈ (process_xml_records root).1,
      c.tag = "Customer" ∧ findCustList c.children = [] := by
    intro c hc
    rw [process_xml_records, classify_eq_filter] at hc
    have hm := (List.mem_filter.mp hc).1
    exact ⟨tag_of_mem_findCustList root.children c hm, hnest c hm⟩
  have hfa : findAllCustomers (build_xml (process_xml_records root).1) =
      (process_xml_records root).1 := findCustList_id _ hmem
  show Except.ok (classify xmlCustValid
      (findAllCustomers (build_xml (process_xml_records root).1))).1.length = _
  rw [hfa]
  exact congrArg Except.ok (count_valid_revalid xmlCustValid (findAllCustomers root))

theorem rescanInvalidOne_xml (k : String) (root : XmlElem)
    (hx : strEndsWith k ".xml" = true)
    (hnest : ∀ c ∈ findAllCustomers root, findCustList c.children = []) :
    rescanInvalidOne k (.xml (build_xml (process_xml_records root).2)) =
      .ok (process_xml_records root).2.length := by
  unfold rescanInvalidOne
  rw [hx]
  simp only [if_true, readAsXml]
  have hmem : ∀ c ∈ (process_xml_records root).2,
      c.tag = "Customer" ∧ findCustList c.children = [] := by
    intro c hc
    rw [process_xml_records, classify_eq_filter] at hc
    have hm := (List.mem_filter.mp hc).1
    exact ⟨tag_of_mem_findCustList root.children c hm, hnest c hm⟩
  have hfa : findAllCustomers (build_xml (process_xml_records root).2) =
      (process_xml_records root).2 := findCustList_id _ hmem
  show Except.ok (classify xmlCustValid
      (findAllCustomers (build_xml (process_xml_records root).2))).2.length = _
  rw [hfa]
  exact congrArg Except.ok (count_invalid_revalid xmlCustValid (findAllCustomers root))

/-- The XML instance of the corrected C10, under the condition that no
found `Customer` element has a nested `Customer` descendant. -/
theorem c10_xml_double (b rest : String) (s : S3State) (root : XmlElem)
    (hnr : strContains rest "raw/" = false)
    (hext : strEndsWith rest ".xml" = true)
    (hnest : ∀ c ∈ findAllCustomers root, findCustList c.children = [])
    (hv0 : filterPfx "validated/" s = []) (he0 : filterPfx "error/" s = [])
    (hl : s3lookup s ("raw/" ++ rest) = some (.xml root)) :
    (lambda_handler (mkS3Event b ("raw/" ++ rest)) s).map
        (fun o => (o.totalValid, o.totalInvalid)) =
      .ok (2 * (process_xml_records root).1.length,
           2 * (process_xml_records root).2.length) := by
  have hkx : strEndsWith ("raw/" ++ rest) ".xml" = true :=
    strEndsWith_append "raw/" rest ".xml" hext
  have hvkey : pyReplace ("raw/" ++ rest) "raw/" "validated/" = "validated/" ++ rest :=
    pyReplace_raw rest "validated/" hnr
  have hekey : pyReplace ("raw/" ++ rest) "raw/" "error/" = "error/" ++ rest :=
    pyReplace_raw rest "error/" hnr
  have hvx : strEndsWith ("validated/" ++ rest) ".xml" = true :=
    strEndsWith_append "validated/" rest ".xml" hext
  have hex : strEndsWith ("error/" ++ rest) ".xml" = true :=
    strEndsWith_append "error/" rest ".xml" hext
  have hpc : processCurrent ("raw/" ++ rest) (Content.xml root) =
      .ok (optPut ("validated/" ++ rest)
             (if (process_xml_records root).1.isEmpty then none
              else some (.xml (build_xml (process_xml_records root).1))) ++
           optPut ("error/" ++ rest)
             (if (process_xml_records root).2.isEmpty then none
              else some (.xml (build_xml (process_xml_records root).2))),
           (process_xml_records root).1.length, (process_xml_records root).2.length) := by
    unfold processCurrent
    rw [hkx]
    simp only [if_true, readAsXml]
    rw [hvkey, hekey]
    cases h1 : (process_xml_records root).1.isEmpty <;>
      cases h2 : (process_xml_records root).2.isEmpty <;> simp [optPut, h1, h2]
  rw [lambda_handler_mkS3Event, hl]
  show (mainFlow ("raw/" ++ rest) (Content.xml root) s).map
      (fun o => (o.totalValid, o.totalInvalid)) = _
  refine mainFlow_double ("raw/" ++ rest) (Content.xml root) s
    ("validated/" ++ rest) ("error/" ++ rest) _ _
    (process_xml_records root).1.length (process_xml_records root).2.length hv0 he0 hpc
    (strStartsWith_append_self "validated/" rest) (validated_not_error rest)
    (error_not_validated rest) (strStartsWith_append_self "error/" rest)
    ?_ ?_ ?_ ?_
  · intro c hc
    by_cases h1 : (process_xml_records root).1.isEmpty
    · rw [if_pos h1] at hc; cases hc
    · rw [if_neg h1] at hc
      cases hc
      exact rescanValidOne_xml ("validated/" ++ rest) root hvx hnest
  · intro h
    by_cases h1 : (process_xml_records root).1.isEmpty
    · simpa using congrArg List.length (List.isEmpty_iff.mp h1)
    · rw [if_neg h1] at h; cases h
  · intro c hc
    by_cases h2 : (process_xml_records root).2.isEmpty
    · rw [if_pos h2] at hc; cases hc
    · rw [if_neg h2] at hc
      cases hc
      exact rescanInvalidOne_xml ("error/" ++ rest) root hex hnest
  · intro h
    by_cases h2 : (process_xml_records root).2.isEmpty
    · simpa using congrArg List.length (List.isEmpty_iff.mp h2)
    · rw [if_neg h2] at h; cases h

/-- A valid leaf `Customer` element. -/
def custLeaf : XmlElem :=
  .mk "Customer" none
    [.mk "CustomerID" (some "2") [], .mk "Name" (some "B") [], .mk "City" (some "Y") []]

/-- A valid `Customer` element containing `custLeaf` as a nested child. -/
def custParent : XmlElem :=
  .mk "Customer" none
    [.mk "CustomerID" (some "1") [], .mk "Name" (some "A") [], .mk "City" (some "X") [],
     custLeaf]

/-- An XML document whose two valid `Customer` elements nest. -/
def xroot10 : XmlElem := .mk "Root" none [custParent]

/-- C10 (counterexample): on empty prior storage, the nested-Customer XML
file decodes to 2 valid records, but the invocation's `total_valid` is 5,
not the claimed 2 × 2 = 4 — the nested element is re-found both inside its
parent and as a re-wrapped sibling during the rescan. -/
theorem c10_counterexample_nested_xml :
    (lambda_handler (mkS3Event "b" "raw/a.xml") [("raw/a.xml", Content.xml xroot10)]).map
        (fun o => (o.totalValid, o.totalInvalid)) = .ok (5, 0) ∧
    (process_xml_records xroot10).1.length = 2 :=
  ⟨rfl, rfl⟩

/-- C10 (amended): for an input key under `raw/` processed against storage
with no prior `validated/` or `error/` objects, the current file's valid
records are counted exactly twice in `total_valid` and its invalid records
exactly twice in `total_invalid` — for JSON and CSV files always, and for
XML files provided no found `Customer` element nests another `Customer`
(otherwise nested elements are counted more than twice, as the
counterexample shows; prior stored objects add their own rescan
contributions on top of the doubling). -/
theorem c10_double_counting :
    (∀ (b rest : String) (s : S3State) (recs : List JVal),
      strContains rest "raw/" = false →
      strEndsWith rest ".json" = true →
      filterPfx "validated/" s = [] →
      filterPfx "error/" s = [] →
      s3lookup s ("raw/" ++ rest) = some (.json (.arr recs)) →
      (lambda_handler (mkS3Event b ("raw/" ++ rest)) s).map
          (fun o => (o.totalValid, o.totalInvalid)) =
        .ok (2 * (process_json_records recs).1.length,
             2 * (process_json_records recs).2.length)) ∧
    (∀ (b rest : String) (s : S3State) (header : List String) (rawRows : List (List String)),
      strContains rest "raw/" = false →
      strEndsWith rest ".csv" = true →
      filterPfx "validated/" s = [] →
      filterPfx "error/" s = [] →
      s3lookup s ("raw/" ++ rest) = some (.csv header rawRows) →
      (lambda_handler (mkS3Event b ("raw/" ++ rest)) s).map
          (fun o => (o.totalValid, o.totalInvalid)) =
        .ok (2 * (process_csv_records (readAsCsv (.csv header rawRows))).1.length,
             2 * (process_csv_records (readAsCsv (.csv header rawRows))).2.length)) ∧
    (∀ (b rest : String) (s : S3State) (root : XmlElem),
      strContains rest "raw/" = false →
      strEndsWith rest ".xml" = true →
      (∀ c ∈ findAllCustomers root, findCustList c.children = []) →
      filterPfx "validated/" s = [] →
      filterPfx "error/" s = [] →
      s3lookup s ("raw/" ++ rest) = some (.xml root) →
      (lambda_handler (mkS3Event b ("raw/" ++ rest)) s).map
          (fun o => (o.totalValid, o.totalInvalid)) =
        .ok (2 * (process_xml_records root).1.length,
             2 * (process_xml_records root).2.length)) :=
  ⟨c10_json_double, c10_csv_double, c10_xml_double⟩

/-- Closed instance discharging C10's hypotheses at a concrete JSON run:
one valid and one invalid record, each counted twice. -/
theorem c10_double_counting_witness :
    strContains "w10.json" "raw/" = false ∧
    strEndsWith "w10.json" ".json" = true ∧
    (lambda_handler (mkS3Event "b" ("raw/" ++ "w10.json"))
        [("raw/w10.json", Content.json (.arr
          [.obj [("CustomerID", .s "1"), ("Amount", .i 5), ("Product", .s "X"),
                 ("Date", .s "2024-01-01")],
           .obj [("CustomerID", .s "A")]]))]).map
        (fun o => (o.totalValid, o.totalInvalid)) =
      .ok (2 * (process_json_records
                  [.obj [("CustomerID", .s "1"), ("Amount", .i 5), ("Product", .s "X"),
                         ("Date", .s "2024-01-01")],
                   .obj [("CustomerID", .s "A")]]).1.length,
           2 * (process_json_records
                  [.obj [("CustomerID", .s "1"), ("Amount", .i 5), ("Product", .s "X"),
                         ("Date", .s "2024-01-01")],
                   .obj [("CustomerID", .s "A")]]).2.length) :=
  ⟨by decide, by decide,
   c10_double_counting.1 "b" "w10.json"
     [("raw/w10.json", Content.json (.arr
       [.obj [("CustomerID", .s "1"), ("Amount", .i 5), ("Product", .s "X"),
              ("Date", .s "2024-01-01")],
        .obj [("CustomerID", .s "A")]]))]
     [.obj [("CustomerID", .s "1"), ("Amount", .i 5), ("Product", .s "X"),
            ("Date", .s "2024-01-01")],
      .obj [("CustomerID", .s "A")]]
     (by decide) (by decide) rfl rfl rfl⟩

end CustomerSat
